import Mathlib

/-
Verification development for the healthcare-api-benchmark repository
(Go sources: main.go, metrics/collector.go, patterns/naive.go,
patterns/workerpool.go, simulator/database.go, models/patient.go).

The Go code is shallowly embedded: pure computations become Lean
functions; stateful code becomes explicit state passing; wall-clock
reads (time.Now()) become explicit `now : Nat` parameters in an
abstract clock; Go's float64 arithmetic in the percentile rank is
modelled exactly as binary64 round-to-nearest-even over ℚ; code paths
that can panic at run time return an `Except`/sum result whose error
constructor marks the panic.
-/

namespace Models

/-- models/patient.go `Patient`: a healthcare patient record.
`time.Time` fields are modelled as abstract clock ticks (`Nat`). -/
structure Patient where
  id : String
  medicalRecordNumber : String
  firstName : String
  lastName : String
  dateOfBirth : Nat
  gender : String
  diagnosisCodes : List String
  medications : List String
  allergies : List String
  lastVisitDate : Nat
  primaryPhysician : String
  insuranceProvider : String
  bloodType : String
deriving DecidableEq

/-- models/patient.go `PatientResponse`: the API response container.
The Go zero value (`models.PatientResponse{}`) is all-zero fields:
`Success=false`, `Patient=nil`, `Error=""`, `Timestamp` zero, `RequestID=""`. -/
structure PatientResponse where
  success : Bool
  patient : Option Patient
  error : String
  timestamp : Nat
  requestID : String
deriving DecidableEq

/-- The Go zero value `models.PatientResponse{}`, as allocated by the
sync.Pool `New` function in patterns/workerpool.go. -/
def zeroPatientResponse : PatientResponse :=
  { success := false, patient := none, error := "", timestamp := 0, requestID := "" }

/-- models/patient.go `NewPatientResponse`: a successful response.
`now` is the ambient clock at the `time.Now()` call. -/
def NewPatientResponse (patient : Patient) (requestID : String) (now : Nat) : PatientResponse :=
  { success := true, patient := some patient, error := "", timestamp := now,
    requestID := requestID }

/-- models/patient.go `NewErrorResponse`: an error response. -/
def NewErrorResponse (err : String) (requestID : String) (now : Nat) : PatientResponse :=
  { success := false, patient := none, error := err, timestamp := now,
    requestID := requestID }

end Models

namespace Simulator

/-- math/rand `Int63n` as called by simulator/database.go: it panics
when its argument is not positive, and otherwise returns a draw in
`[0, n)`.  The panic is modelled by the `error` constructor; the draw
is modelled by reducing an arbitrary rng value `r` into range. -/
def Int63n (r : Int) (n : Int) : Except String Int :=
  if n ≤ 0 then Except.error "invalid argument to Int63n"
  else Except.ok (r % n)

/-- simulator/database.go `Database.getRandomLatency`: draws
`minLatency + rand.Int63n(maxLatency - minLatency)`.  Latencies are
abstract duration ticks (`Int`, like Go's `time.Duration`); `r` models
the rng state used for the draw. -/
def Database.getRandomLatency (minLatency maxLatency : Int) (r : Int) : Except String Int :=
  match Int63n r (maxLatency - minLatency) with
  | Except.error e => Except.error e
  | Except.ok randomDelta => Except.ok (minLatency + randomDelta)

end Simulator

namespace Patterns

/-- A Go buffered channel of jobs, as created by
`make(chan *job, config.QueueSize)` in patterns/workerpool.go:
a FIFO buffer with a fixed capacity and a closed flag. -/
structure JobChan (α : Type) where
  buf : List α
  cap : Nat
  closed : Bool
deriving DecidableEq

/-- Result of a non-blocking send (`select` with a `default` branch).
Go semantics: a send on a closed channel panics; otherwise a buffered
send succeeds exactly when the buffer is below capacity, and the
`default` branch is taken otherwise. -/
inductive SendResult (α : Type) where
  | accepted (ch : JobChan α)
  | rejected
  | panicked
deriving DecidableEq

/-- The non-blocking enqueue attempt performed by
`WorkerPoolHandler.ServeHTTP` (`select { case h.jobQueue <- j: ...
default: ... }`). -/
def trySend {α : Type} (ch : JobChan α) (a : α) : SendResult α :=
  if ch.closed then SendResult.panicked
  else if ch.buf.length < ch.cap then
    SendResult.accepted { ch with buf := ch.buf ++ [a] }
  else SendResult.rejected

/-- A worker dequeuing one job (`job, ok := <-h.jobQueue`): returns the
oldest buffered job, if any.  A closed channel still delivers its
buffered jobs before reporting `ok = false`. -/
def recv {α : Type} (ch : JobChan α) : Option (α × JobChan α) :=
  match ch.buf with
  | x :: rest => some (x, { ch with buf := rest })
  | [] => none

/-- `NewWorkerPoolHandler`: the job queue starts empty, open, with the
capacity fixed at construction. -/
def newJobQueue (α : Type) (queueSize : Nat) : JobChan α :=
  { buf := [], cap := queueSize, closed := false }

/-- The `close(h.jobQueue)` performed first by
`WorkerPoolHandler.Shutdown` (and `OptimizedHandler.Shutdown`). -/
def shutdownClose {α : Type} (ch : JobChan α) : JobChan α :=
  { ch with closed := true }

/-- Iterated non-blocking submissions; `none` when any submission does
not come back accepted. -/
def submitAll {α : Type} (ch : JobChan α) : List α → Option (JobChan α)
  | [] => some ch
  | j :: rest =>
    match trySend ch j with
    | SendResult.accepted ch2 => submitAll ch2 rest
    | SendResult.rejected => none
    | SendResult.panicked => none

/-- An outcome written to a job's result conduit: the success channel
(`j.resultChan`) carries a response, the failure channel (`j.errChan`)
carries an error. -/
inductive Outcome where
  | success (resp : Models.PatientResponse)
  | failure (err : String)
deriving DecidableEq

/-- `WorkerPoolHandler.processJob`, restricted to its conduit writes.
`dbResult` is what `db.QueryPatient` returned; `selectDelivers` is the
branch taken by the final `select` (the `ctx.Done()` branch, i.e.
`selectDelivers = false`, is only available when the caller's context
is cancelled); `now` is the ambient clock.  Each job is received from
the queue by exactly one worker, so a single call models all writes a
job's conduit ever sees. -/
def WorkerPoolHandler.processJobWrites (dbResult : Except String Models.Patient)
    (selectDelivers : Bool) (now : Nat) : List Outcome :=
  match dbResult with
  | Except.error e => if selectDelivers then [Outcome.failure e] else []
  | Except.ok patient =>
    if selectDelivers then [Outcome.success (Models.NewPatientResponse patient "" now)]
    else []

/-- The `sync.Pool` of response objects in `OptimizedHandler`, with the
pool-effectiveness counters.  `idle` is the set of pooled objects
(order is irrelevant to the claims; a list keeps it concrete). -/
structure ResponsePool where
  idle : List Models.PatientResponse
  poolHits : Nat
  poolMisses : Nat
deriving DecidableEq

/-- `OptimizedHandler.getResponse`: `h.responsePool.Get()` runs the
pool's `New` function (which increments `poolMisses` and allocates a
zero response) exactly when no idle object exists; the handler then
unconditionally increments `poolHits` and resets every field of the
object to its zero value before handing it out. -/
def OptimizedHandler.getResponse (p : ResponsePool) :
    Models.PatientResponse × ResponsePool :=
  match p.idle with
  | resp :: rest =>
    ({ resp with success := false, patient := none, error := "", timestamp := 0,
                 requestID := "" },
     { p with idle := rest, poolHits := p.poolHits + 1 })
  | [] =>
    ({ Models.zeroPatientResponse with success := false, patient := none, error := "",
                                       timestamp := 0, requestID := "" },
     { p with poolHits := p.poolHits + 1, poolMisses := p.poolMisses + 1 })

/-- `OptimizedHandler.putResponse`: clears `Patient` and `Error` (only
those two fields), then returns the object to the idle set. -/
def OptimizedHandler.putResponse (p : ResponsePool) (resp : Models.PatientResponse) :
    ResponsePool :=
  { p with idle := { resp with patient := none, error := "" } :: p.idle }

/-- `OptimizedHandler.processJob`: conduit writes plus pool effects.
On a database error the populated response is returned to the pool and
the failure is offered on `errChan`; on success the response is offered
on `resultChan` and ownership transfers to the caller (not returned to
the pool here).  `selectDelivers` is as in
`WorkerPoolHandler.processJobWrites`. -/
def OptimizedHandler.processJob (p : ResponsePool)
    (dbResult : Except String Models.Patient) (selectDelivers : Bool) (now : Nat) :
    List Outcome × ResponsePool :=
  let acquired := OptimizedHandler.getResponse p
  let resp := acquired.1
  let p1 := acquired.2
  match dbResult with
  | Except.error e =>
    let resp1 := { resp with timestamp := now, success := false, error := e }
    ((if selectDelivers then [Outcome.failure e] else []),
     OptimizedHandler.putResponse p1 resp1)
  | Except.ok patient =>
    let resp2 := { resp with timestamp := now, success := true, patient := some patient }
    ((if selectDelivers then [Outcome.success resp2] else []), p1)

/-- `OptimizedHandler.GetPoolStats`: hit rate in percent, 0 when no
acquire has happened. -/
def OptimizedHandler.GetPoolStats (p : ResponsePool) : Nat × Nat × ℚ :=
  (p.poolHits, p.poolMisses,
   if 0 < p.poolHits + p.poolMisses then
     (p.poolHits : ℚ) / ((p.poolHits : ℚ) + (p.poolMisses : ℚ)) * 100
   else 0)

/-- `WorkerPoolHandler.Shutdown`, after `close(h.jobQueue)` and
`h.cancel()`: it waits on either the workers' completion barrier or the
caller's deadline.  `workersDone` says the barrier won; `outstanding`
is the number of still-active workers/jobs at that moment (available in
the handler's counters but unused by this code path). -/
def WorkerPoolHandler.Shutdown (workersDone : Bool) (outstanding : Nat) :
    Except String Unit :=
  if workersDone then Except.ok ()
  else Except.error "shutdown timeout: workers still processing"

/-- One iteration of the polling loop in `NaiveHandler.Shutdown`:
returns `some` outcome when the loop exits, `none` when it spins again.
`active` is the current `activeGoroutines` counter, `ctxDone` whether
the caller's deadline has elapsed. -/
def NaiveHandler.ShutdownStep (active : Int) (ctxDone : Bool) :
    Option (Except String Unit) :=
  if active = 0 then some (Except.ok ())
  else if ctxDone then
    some (Except.error ("shutdown timeout: " ++ toString active ++ " goroutines still active"))
  else none

end Patterns

namespace Metrics

/-- Round a rational to the nearest integer, ties to even.  This is the
integer-scale core of IEEE-754 round-to-nearest-even. -/
def roundTiesEven (x : ℚ) : ℤ :=
  if x - ⌊x⌋ < 1/2 then ⌊x⌋
  else if 1/2 < x - ⌊x⌋ then ⌊x⌋ + 1
  else if 2 ∣ ⌊x⌋ then ⌊x⌋ else ⌊x⌋ + 1

/-- Binary64 (Go float64) rounding of an exact rational value: round to
53 significant bits, nearest, ties to even.  Values of magnitude
outside the normal binary64 range do not arise in the percentile
computation, so overflow and subnormal rounding are not modelled.
Non-positive inputs only occur here as exactly 0, which is a fixed
point. -/
def fl (q : ℚ) : ℚ :=
  if q ≤ 0 then 0
  else (roundTiesEven (q * 2 ^ ((52 : ℤ) - Int.log 2 q)) : ℚ) * 2 ^ (Int.log 2 q - 52)

/-- Go's float-to-int conversion `int(f)`: truncation toward zero. -/
def goTrunc (q : ℚ) : ℤ :=
  if q < 0 then -⌊-q⌋ else ⌊q⌋

/-- The rank computed by metrics/collector.go `percentile`:
`int(float64(p) / 100.0 * float64(n))`, with every float64 operation
(conversion, division, multiplication) rounded to binary64. -/
def goRank (p n : Nat) : ℤ :=
  goTrunc (fl (fl (fl (p : ℚ) / 100) * fl (n : ℚ)))

/-- metrics/collector.go `percentile`: nearest-rank percentile of an
already-sorted list; 0 for the empty list; the rank is clamped to at
most `n - 1`.  Latency samples are abstract duration ticks (`Nat`). -/
def percentile (sorted : List Nat) (p : Nat) : Nat :=
  if sorted.length = 0 then 0
  else
    let n := sorted.length
    let rank := (goRank p n).toNat
    let rank2 := if n ≤ rank then n - 1 else rank
    sorted.getD rank2 0

/-- The "copy and sort ascending" step of `Collector.GetStats`
(`sort.Slice(latenciesCopy, ...)`). -/
def sortedLatencies (l : List Nat) : List Nat :=
  List.insertionSort (fun a b => a ≤ b) l

/-- metrics/collector.go `Collector`.  Counters are only ever
incremented, so they are modelled as `Nat`; memory deltas may be
arbitrary, so they remain `Int`.  `endTime = none` models Go's zero
`time.Time` (`endTime.IsZero()`); clock readings are abstract ticks. -/
structure Collector where
  totalRequests : Nat
  successRequests : Nat
  errorRequests : Nat
  rejectedRequests : Nat
  latencies : List Nat
  startTime : Nat
  endTime : Option Nat
  memoryAllocations : Int
  memoryBytes : Int
deriving DecidableEq

/-- `NewCollector`: zero counters, empty sample buffer,
`startTime = time.Now()`. -/
def NewCollector (now : Nat) : Collector :=
  { totalRequests := 0, successRequests := 0, errorRequests := 0,
    rejectedRequests := 0, latencies := [], startTime := now, endTime := none,
    memoryAllocations := 0, memoryBytes := 0 }

/-- `Collector.RecordRequest`: increments the total, one of
success/error, and appends the latency sample. -/
def Collector.RecordRequest (c : Collector) (latency : Nat) (success : Bool) :
    Collector :=
  { c with totalRequests := c.totalRequests + 1,
           successRequests := if success then c.successRequests + 1 else c.successRequests,
           errorRequests := if success then c.errorRequests else c.errorRequests + 1,
           latencies := c.latencies ++ [latency] }

/-- `Collector.RecordRejection`: increments the total and the rejected
counter; no latency sample is recorded. -/
def Collector.RecordRejection (c : Collector) : Collector :=
  { c with totalRequests := c.totalRequests + 1,
           rejectedRequests := c.rejectedRequests + 1 }

/-- `Collector.RecordMemory`. -/
def Collector.RecordMemory (c : Collector) (allocations bytes : Int) : Collector :=
  { c with memoryAllocations := c.memoryAllocations + allocations,
           memoryBytes := c.memoryBytes + bytes }

/-- `Collector.Stop`: freezes the measurement window at the current
clock. -/
def Collector.Stop (c : Collector) (now : Nat) : Collector :=
  { c with endTime := some now }

/-- `Collector.Reset`: clears all collected metrics and restarts the
window at the current clock. -/
def Collector.Reset (_c : Collector) (now : Nat) : Collector :=
  { totalRequests := 0, successRequests := 0, errorRequests := 0,
    rejectedRequests := 0, latencies := [], startTime := now, endTime := none,
    memoryAllocations := 0, memoryBytes := 0 }

/-- metrics/collector.go `Stats`: the snapshot computed by `GetStats`.
Rates, duration and throughput are exact rationals standing for the Go
float64 values; latency statistics stay in duration ticks (Go's mean is
the integer division `sum / time.Duration(len)`). -/
structure Stats where
  totalRequests : Nat
  successRequests : Nat
  errorRequests : Nat
  rejectedRequests : Nat
  errorRate : ℚ
  rejectionRate : ℚ
  minLatency : Nat
  maxLatency : Nat
  meanLatency : Nat
  medianLatency : Nat
  p95Latency : Nat
  p99Latency : Nat
  duration : ℚ
  requestsPerSec : ℚ
  memoryAllocations : Int
  memoryBytes : Int

/-- `Collector.GetStats`: computes the snapshot.  `now` is the clock at
the `time.Now()` read taken when `endTime` is still zero. -/
def Collector.GetStats (c : Collector) (now : Nat) : Stats :=
  let endTime := c.endTime.getD now
  let duration : ℚ := ((endTime : ℤ) : ℚ) - ((c.startTime : ℤ) : ℚ)
  let sorted := sortedLatencies c.latencies
  { totalRequests := c.totalRequests,
    successRequests := c.successRequests,
    errorRequests := c.errorRequests,
    rejectedRequests := c.rejectedRequests,
    errorRate :=
      if 0 < c.totalRequests then
        (c.errorRequests : ℚ) / (c.totalRequests : ℚ) * 100
      else 0,
    rejectionRate :=
      if 0 < c.totalRequests then
        (c.rejectedRequests : ℚ) / (c.totalRequests : ℚ) * 100
      else 0,
    minLatency := if c.latencies.length = 0 then 0 else sorted.getD 0 0,
    maxLatency := if c.latencies.length = 0 then 0 else sorted.getD (sorted.length - 1) 0,
    meanLatency := if c.latencies.length = 0 then 0 else c.latencies.sum / c.latencies.length,
    medianLatency := if c.latencies.length = 0 then 0 else percentile sorted 50,
    p95Latency := if c.latencies.length = 0 then 0 else percentile sorted 95,
    p99Latency := if c.latencies.length = 0 then 0 else percentile sorted 99,
    duration := duration,
    requestsPerSec := if 0 < duration then (c.totalRequests : ℚ) / duration else 0,
    memoryAllocations := c.memoryAllocations,
    memoryBytes := c.memoryBytes }

/-- One externally-triggered collector operation, tagged with the
ambient clock at the moment of the call (the Go methods other than
`Stop` never read the clock; the tag records when the call happened). -/
inductive MetricsOp where
  | record (now latency : Nat) (success : Bool)
  | reject (now : Nat)
  | memoryOp (now : Nat) (allocations bytes : Int)
  | stop (now : Nat)

/-- Applying one operation to a collector. -/
def Collector.applyOp (c : Collector) : MetricsOp → Collector
  | MetricsOp.record _ latency success => c.RecordRequest latency success
  | MetricsOp.reject _ => c.RecordRejection
  | MetricsOp.memoryOp _ a b => c.RecordMemory a b
  | MetricsOp.stop now => c.Stop now

/-- Running a trace of operations. -/
def Collector.runOps (c : Collector) : List MetricsOp → Collector
  | [] => c
  | op :: rest => (c.applyOp op).runOps rest

/-- Number of requests (completed or rejected) in a trace: exactly the
operations that increment `totalRequests`. -/
def countRequests (ops : List MetricsOp) : Nat :=
  ops.countP fun op =>
    match op with
    | MetricsOp.record _ _ _ => true
    | MetricsOp.reject _ => true
    | _ => false

/-- Clock tick of the first `RecordRequest` in a trace, if any. -/
def firstRecordTime : List MetricsOp → Option Nat
  | [] => none
  | MetricsOp.record now _ _ :: _ => some now
  | _ :: rest => firstRecordTime rest

/-- Clock tick of the last `Stop` in a trace, if any. -/
def lastStopTime : List MetricsOp → Option Nat
  | [] => none
  | MetricsOp.stop now :: rest => some ((lastStopTime rest).getD now)
  | _ :: rest => lastStopTime rest

/-- Modelled from the spec: "Throughput = total requests / elapsed
wall-clock seconds from first record to stop() (or to now, if stop()
was never called)".  This is the claimed definition of throughput,
written for comparison against what `GetStats` computes. -/
def specFirstRecordThroughput (total firstRecord stopOrNow : Nat) : ℚ :=
  if 0 < ((stopOrNow : ℤ) : ℚ) - ((firstRecord : ℤ) : ℚ) then
    (total : ℚ) / (((stopOrNow : ℤ) : ℚ) - ((firstRecord : ℤ) : ℚ))
  else 0

/-- The collector states reachable through its public operations,
starting from `NewCollector` (any construction time, any call
arguments, any clocks). -/
inductive Collector.Reachable : Collector → Prop
  | init (now : Nat) : Collector.Reachable (NewCollector now)
  | record {c : Collector} (h : Collector.Reachable c) (latency : Nat) (success : Bool) :
      Collector.Reachable (c.RecordRequest latency success)
  | reject {c : Collector} (h : Collector.Reachable c) :
      Collector.Reachable c.RecordRejection
  | memoryOp {c : Collector} (h : Collector.Reachable c) (a b : Int) :
      Collector.Reachable (c.RecordMemory a b)
  | stop {c : Collector} (h : Collector.Reachable c) (now : Nat) :
      Collector.Reachable (c.Stop now)
  | reset {c : Collector} (h : Collector.Reachable c) (now : Nat) :
      Collector.Reachable (c.Reset now)

end Metrics

/-- Helper: from an open queue with enough remaining capacity, every
submission in a batch is accepted and the jobs are appended in FIFO
order. -/
theorem submitAll_accepts {α : Type} (jobs : List α) :
    ∀ ch : Patterns.JobChan α, ch.closed = false →
      ch.buf.length + jobs.length ≤ ch.cap →
      Patterns.submitAll ch jobs =
        some { buf := ch.buf ++ jobs, cap := ch.cap, closed := false } := by
  induction jobs with
  | nil =>
    intro ch h1 h2
    cases ch
    simp_all [Patterns.submitAll]
  | cons j rest ih =>
    intro ch h1 h2
    have hlt : ch.buf.length < ch.cap := by
      simp at h2
      omega
    have hsend : Patterns.trySend ch j =
        Patterns.SendResult.accepted { ch with buf := ch.buf ++ [j] } := by
      simp [Patterns.trySend, h1, hlt]
    have := ih { ch with buf := ch.buf ++ [j] } (by simp [h1]) (by simp; simp at h2; omega)
    simp [Patterns.submitAll, hsend, this]

/-- C2: for every job, the worker that processes it writes at most one
outcome to the job's result conduit — the write lists produced by
`WorkerPoolHandler.processJob` and `OptimizedHandler.processJob` have
length at most 1 (hence never both a success and a failure, and never
two outcomes); when the final select delivers, the single outcome
matches the database result: a failure carrying the error, or a success
carrying the response. -/
theorem processJob_at_most_one_outcome (p : Patterns.ResponsePool)
    (dbResult : Except String Models.Patient) (selectDelivers : Bool) (now : Nat)
    (e : String) (patient : Models.Patient) :
    (Patterns.WorkerPoolHandler.processJobWrites dbResult selectDelivers now).length ≤ 1 ∧
    ((Patterns.OptimizedHandler.processJob p dbResult selectDelivers now).1).length ≤ 1 ∧
    Patterns.WorkerPoolHandler.processJobWrites (Except.error e) true now =
      [Patterns.Outcome.failure e] ∧
    Patterns.WorkerPoolHandler.processJobWrites (Except.ok patient) true now =
      [Patterns.Outcome.success (Models.NewPatientResponse patient "" now)] ∧
    Patterns.WorkerPoolHandler.processJobWrites dbResult false now = [] := by
  refine ⟨?_, ?_, rfl, rfl, ?_⟩
  · cases dbResult <;> cases selectDelivers <;>
      simp [Patterns.WorkerPoolHandler.processJobWrites]
  · cases dbResult <;> cases selectDelivers <;>
      simp [Patterns.OptimizedHandler.processJob]
  · cases dbResult <;> simp [Patterns.WorkerPoolHandler.processJobWrites]

/-- C3: with queue capacity C fixed at construction, C submissions into
the empty queue are all accepted; with none dequeued, the next
non-blocking submission is rejected (the overload signal, distinct from
the panicked case); after one job is dequeued, one further submission
is accepted. -/
theorem tryEnqueue_capacity_backpressure {α : Type} (C : Nat) (hC : 1 ≤ C)
    (jobs : List α) (hlen : jobs.length = C) (j : α) :
    ∃ full : Patterns.JobChan α,
      Patterns.submitAll (Patterns.newJobQueue α C) jobs = some full ∧
      Patterns.trySend full j = Patterns.SendResult.rejected ∧
      ∃ x ch2, Patterns.recv full = some (x, ch2) ∧
        ∃ ch3, Patterns.trySend ch2 j = Patterns.SendResult.accepted ch3 := by
  refine ⟨{ buf := jobs, cap := C, closed := false }, ?_, ?_, ?_⟩
  · simpa [Patterns.newJobQueue] using
      submitAll_accepts jobs (Patterns.newJobQueue α C) rfl (by simp [Patterns.newJobQueue, hlen])
  · simp [Patterns.trySend, hlen]
  · cases jobs with
    | nil => simp at hlen; omega
    | cons x rest =>
      refine ⟨x, { buf := rest, cap := C, closed := false }, by simp [Patterns.recv], ?_⟩
      have : rest.length < C := by simp at hlen; omega
      refine ⟨{ buf := rest ++ [j], cap := C, closed := false }, ?_⟩
      simp [Patterns.trySend, this]

/-- Witness for C3 at C = 2, jobs [10, 20], extra job 30. -/
theorem tryEnqueue_capacity_backpressure_witness :
    (1 ≤ 2 ∧ ([10, 20] : List Nat).length = 2) ∧
    ∃ full : Patterns.JobChan Nat,
      Patterns.submitAll (Patterns.newJobQueue Nat 2) [10, 20] = some full ∧
      Patterns.trySend full 30 = Patterns.SendResult.rejected ∧
      ∃ x ch2, Patterns.recv full = some (x, ch2) ∧
        ∃ ch3, Patterns.trySend ch2 30 = Patterns.SendResult.accepted ch3 :=
  ⟨by decide, tryEnqueue_capacity_backpressure 2 (by decide) [10, 20] (by decide) 30⟩

/-- C4 counterexample: `putResponse` (release) does not clear all
fields that could carry prior request data before the container enters
the idle set — the success flag, timestamp and correlation id of the
released request are still present on the pooled container. -/
theorem putResponse_retains_fields_counterexample :
    ((Patterns.OptimizedHandler.putResponse { idle := [], poolHits := 0, poolMisses := 0 }
        { success := true, patient := none, error := "database error",
          timestamp := 7, requestID := "req-1" }).idle.getD 0
        Models.zeroPatientResponse).timestamp = 7 ∧
    ((Patterns.OptimizedHandler.putResponse { idle := [], poolHits := 0, poolMisses := 0 }
        { success := true, patient := none, error := "database error",
          timestamp := 7, requestID := "req-1" }).idle.getD 0
        Models.zeroPatientResponse).success = true ∧
    ((Patterns.OptimizedHandler.putResponse { idle := [], poolHits := 0, poolMisses := 0 }
        { success := true, patient := none, error := "database error",
          timestamp := 7, requestID := "req-1" }).idle.getD 0
        Models.zeroPatientResponse).requestID = "req-1" ∧
    (7 : Nat) ≠ 0 :=
  ⟨rfl, rfl, rfl, by decide⟩

/-- C4 amended: release clears exactly the payload (`Patient`) and the
error text before the container returns to the idle set, and acquire
(`getResponse`) clears every field before the container is handed to a
new request — so no data of the releasing request is observable at the
next hand-out, even though release alone leaves the success flag,
timestamp and correlation id behind. -/
theorem release_acquire_clears (p q : Patterns.ResponsePool)
    (resp : Models.PatientResponse) :
    ((Patterns.OptimizedHandler.putResponse p resp).idle.getD 0
        Models.zeroPatientResponse).patient = none ∧
    ((Patterns.OptimizedHandler.putResponse p resp).idle.getD 0
        Models.zeroPatientResponse).error = "" ∧
    (Patterns.OptimizedHandler.getResponse q).1 = Models.zeroPatientResponse := by
  refine ⟨rfl, rfl, ?_⟩
  cases q with
  | mk idle hits misses =>
    cases idle with
    | nil => rfl
    | cons r rest => cases r; rfl

/-- C6 counterexample: the worker pool's shutdown timeout error is one
fixed message — the result with 1 outstanding unit equals the result
with 2 outstanding units — so it does not name how many workers/jobs
are still outstanding. -/
theorem workerpool_shutdown_error_counterexample :
    Patterns.WorkerPoolHandler.Shutdown false 1 =
      Patterns.WorkerPoolHandler.Shutdown false 2 ∧
    Patterns.WorkerPoolHandler.Shutdown false 1 =
      Except.error "shutdown timeout: workers still processing" :=
  ⟨rfl, rfl⟩

/-- C6 amended: shutdown returns ok exactly when every worker exits
before the deadline and otherwise returns a timeout error without
crashing; the naive handler's timeout error names the outstanding count
(so at a 0-duration deadline with a job mid-flight it names at least
1), while the worker pool's timeout error is a fixed message that names
no count. -/
theorem shutdown_deadline_contract (workersDone : Bool) (outstanding : Nat)
    (active : Int) (hactive : active ≠ 0) :
    (Patterns.WorkerPoolHandler.Shutdown workersDone outstanding = Except.ok () ↔
      workersDone = true) ∧
    Patterns.NaiveHandler.ShutdownStep 0 true = some (Except.ok ()) ∧
    Patterns.NaiveHandler.ShutdownStep active true =
      some (Except.error
        ("shutdown timeout: " ++ toString active ++ " goroutines still active")) := by
  refine ⟨?_, rfl, ?_⟩
  · cases workersDone <;> simp [Patterns.WorkerPoolHandler.Shutdown]
  · simp [Patterns.NaiveHandler.ShutdownStep, hactive]

/-- Witness for C6 at workersDone = false, 3 outstanding, 1 active
goroutine. -/
theorem shutdown_deadline_contract_witness :
    (1 : Int) ≠ 0 ∧
    ((Patterns.WorkerPoolHandler.Shutdown false 3 = Except.ok () ↔ false = true) ∧
      Patterns.NaiveHandler.ShutdownStep 0 true = some (Except.ok ()) ∧
      Patterns.NaiveHandler.ShutdownStep 1 true =
        some (Except.error
          ("shutdown timeout: " ++ toString (1 : Int) ++ " goroutines still active"))) :=
  ⟨by decide, shutdown_deadline_contract false 3 1 (by decide)⟩

/-- C7: after `Shutdown` closes the job queue, a submission does not
come back rejected — by Go channel semantics the send on the closed
channel panics (first conjunct), whereas before shutdown the same
submission does not panic (second conjunct); jobs already enqueued at
close are still drainable (third conjunct). -/
theorem submit_after_shutdown_panics :
    Patterns.trySend (Patterns.shutdownClose (Patterns.newJobQueue Nat 4)) 42 =
      Patterns.SendResult.panicked ∧
    Patterns.trySend (Patterns.newJobQueue Nat 4) 42 ≠ Patterns.SendResult.panicked ∧
    Patterns.recv (Patterns.shutdownClose { buf := [7], cap := 4, closed := false }) =
      some (7, Patterns.shutdownClose { buf := [], cap := 4, closed := false }) := by
  refine ⟨rfl, ?_, rfl⟩
  simp [Patterns.trySend, Patterns.newJobQueue]

/-- C8 counterexample: an acquire from an empty pool increments both
the pool-miss counter (inside the sync.Pool `New` function) and the
pool-hit counter (incremented unconditionally by `getResponse`) — the
claim says never both for a single acquire. -/
theorem acquire_miss_increments_both_counters :
    (Patterns.OptimizedHandler.getResponse
        { idle := [], poolHits := 0, poolMisses := 0 }).2.poolHits = 1 ∧
    (Patterns.OptimizedHandler.getResponse
        { idle := [], poolHits := 0, poolMisses := 0 }).2.poolMisses = 1 :=
  ⟨rfl, rfl⟩

/-- C8 amended: every acquire increments the pool-hit counter; the
pool-miss counter additionally increments exactly when no idle
container exists and a new one is constructed — so a reuse increments
only the hit counter, while a miss increments both. -/
theorem acquire_counter_behavior (p : Patterns.ResponsePool) :
    (Patterns.OptimizedHandler.getResponse p).2.poolHits = p.poolHits + 1 ∧
    (Patterns.OptimizedHandler.getResponse p).2.poolMisses =
      p.poolMisses + (if p.idle.isEmpty then 1 else 0) := by
  cases p with
  | mk idle hits misses =>
    cases idle <;> simp [Patterns.OptimizedHandler.getResponse]

/-- C9: with min latency = max latency (a configuration the spec
permits), the simulated delay draw is not total: `getRandomLatency`
reaches `rand.Int63n(0)`, which panics, for every rng state. -/
theorem getRandomLatency_min_eq_max_panics :
    Simulator.Database.getRandomLatency 50 50 0 =
      Except.error "invalid argument to Int63n" ∧
    ∀ r : Int, Simulator.Database.getRandomLatency 50 50 r =
      Except.error "invalid argument to Int63n" := by
  refine ⟨?_, fun r => ?_⟩ <;>
    simp [Simulator.Database.getRandomLatency, Simulator.Int63n]

/-- Helper: the counter equality holds of every reachable collector
state. -/
theorem reachable_counter_sum {c : Metrics.Collector} (h : Metrics.Collector.Reachable c) :
    c.totalRequests = c.successRequests + c.errorRequests + c.rejectedRequests := by
  induction h with
  | init now => rfl
  | record h latency success ih =>
    cases success <;> simp [Metrics.Collector.RecordRequest] <;> omega
  | reject h ih => simp [Metrics.Collector.RecordRejection]; omega
  | memoryOp h a b ih => simpa [Metrics.Collector.RecordMemory] using ih
  | stop h now ih => simpa [Metrics.Collector.Stop] using ih
  | reset h now => rfl

/-- C10: in every reachable state of the metrics collector — i.e.
preserved by every operation starting from `NewCollector` — the total
request counter equals the sum of the success, error and rejected
counters, so every `GetStats` snapshot satisfies
TotalRequests = SuccessRequests + ErrorRequests + RejectedRequests. -/
theorem collector_counter_invariant {c : Metrics.Collector}
    (h : Metrics.Collector.Reachable c) (now : Nat) :
    (c.GetStats now).totalRequests =
      (c.GetStats now).successRequests + (c.GetStats now).errorRequests +
        (c.GetStats now).rejectedRequests := by
  simpa [Metrics.Collector.GetStats] using reachable_counter_sum h

/-- Witness for C10 on the state reached by one recorded request and
one rejection, snapshot taken at clock 9. -/
theorem collector_counter_invariant_witness :
    ((((Metrics.NewCollector 0).RecordRequest 5 true).RecordRejection).GetStats 9).totalRequests =
      ((((Metrics.NewCollector 0).RecordRequest 5 true).RecordRejection).GetStats 9).successRequests +
        ((((Metrics.NewCollector 0).RecordRequest 5 true).RecordRejection).GetStats 9).errorRequests +
        ((((Metrics.NewCollector 0).RecordRequest 5 true).RecordRejection).GetStats 9).rejectedRequests :=
  collector_counter_invariant
    (Metrics.Collector.Reachable.reject
      (Metrics.Collector.Reachable.record (Metrics.Collector.Reachable.init 0) 5 true)) 9

/-- Helper: no collector operation ever changes the start of the
measurement window. -/
theorem runOps_startTime (ops : List Metrics.MetricsOp) :
    ∀ c : Metrics.Collector, (c.runOps ops).startTime = c.startTime := by
  induction ops with
  | nil => intro c; rfl
  | cons op rest ih =>
    intro c
    cases op <;>
      simp [Metrics.Collector.runOps, Metrics.Collector.applyOp, ih,
        Metrics.Collector.RecordRequest, Metrics.Collector.RecordRejection,
        Metrics.Collector.RecordMemory, Metrics.Collector.Stop]

/-- Helper: after a trace, `endTime` is the clock of the trace's last
`Stop`, or the starting collector's `endTime` when the trace contains
none. -/
theorem runOps_endTime (ops : List Metrics.MetricsOp) :
    ∀ c : Metrics.Collector,
      (c.runOps ops).endTime = (Metrics.lastStopTime ops).or c.endTime := by
  induction ops with
  | nil => intro c; simp [Metrics.Collector.runOps, Metrics.lastStopTime]
  | cons op rest ih =>
    intro c
    cases op with
    | record now latency success =>
      simp [Metrics.Collector.runOps, Metrics.Collector.applyOp, ih,
        Metrics.Collector.RecordRequest, Metrics.lastStopTime]
    | reject now =>
      simp [Metrics.Collector.runOps, Metrics.Collector.applyOp, ih,
        Metrics.Collector.RecordRejection, Metrics.lastStopTime]
    | memoryOp now a b =>
      simp [Metrics.Collector.runOps, Metrics.Collector.applyOp, ih,
        Metrics.Collector.RecordMemory, Metrics.lastStopTime]
    | stop now =>
      rw [Metrics.Collector.runOps, Metrics.Collector.applyOp, ih]
      cases hrest : Metrics.lastStopTime rest <;>
        simp [Metrics.lastStopTime, hrest, Metrics.Collector.Stop, Option.or]

/-- Helper: after a trace, the total request counter has grown by
exactly the number of record/reject operations in the trace. -/
theorem runOps_total (ops : List Metrics.MetricsOp) :
    ∀ c : Metrics.Collector,
      (c.runOps ops).totalRequests = c.totalRequests + Metrics.countRequests ops := by
  induction ops with
  | nil => intro c; simp [Metrics.Collector.runOps, Metrics.countRequests]
  | cons op rest ih =>
    intro c
    cases op <;>
      simp [Metrics.Collector.runOps, Metrics.Collector.applyOp, ih,
        Metrics.Collector.RecordRequest, Metrics.Collector.RecordRejection,
        Metrics.Collector.RecordMemory, Metrics.Collector.Stop,
        Metrics.countRequests, List.countP_cons] <;> omega

/-- C5 amended: for every trace of collector operations, the
snapshot's throughput equals the number of recorded/rejected requests
divided by the elapsed clock from collector CONSTRUCTION (not from the
first recorded request) to the last `Stop`, or to the snapshot clock
when `Stop` never ran; it is 0 when that elapsed time is not
positive. -/
theorem throughput_from_construction (t0 tNow : Nat) (ops : List Metrics.MetricsOp) :
    (((Metrics.NewCollector t0).runOps ops).GetStats tNow).requestsPerSec =
      if 0 < ((((Metrics.lastStopTime ops).getD tNow : Nat) : ℤ) : ℚ) - ((t0 : ℤ) : ℚ) then
        (Metrics.countRequests ops : ℚ) /
          (((((Metrics.lastStopTime ops).getD tNow : Nat) : ℤ) : ℚ) - ((t0 : ℤ) : ℚ))
      else 0 := by
  have h1 := runOps_startTime ops (Metrics.NewCollector t0)
  have h2 := runOps_endTime ops (Metrics.NewCollector t0)
  have h3 := runOps_total ops (Metrics.NewCollector t0)
  have hend : ((Metrics.NewCollector t0).runOps ops).endTime.getD tNow =
      (Metrics.lastStopTime ops).getD tNow := by
    rw [h2]
    cases Metrics.lastStopTime ops <;> simp [Metrics.NewCollector, Option.or]
  simp only [Metrics.Collector.GetStats, hend, h1, h3]
  simp [Metrics.NewCollector]

/-- C5 counterexample: collector constructed at clock 0, a single
request recorded at clock 5, `Stop` at clock 10, snapshot at clock 12.
The code computes throughput 1 / 10 (from construction), while the
claimed definition — total requests over elapsed time from the first
recorded request to stop — gives 1 / 5. -/
theorem throughput_first_record_counterexample :
    (((Metrics.NewCollector 0).runOps
        [Metrics.MetricsOp.record 5 7 true, Metrics.MetricsOp.stop 10]).GetStats
          12).requestsPerSec = 1 / 10 ∧
    Metrics.specFirstRecordThroughput
      (Metrics.countRequests [Metrics.MetricsOp.record 5 7 true, Metrics.MetricsOp.stop 10])
      ((Metrics.firstRecordTime
          [Metrics.MetricsOp.record 5 7 true, Metrics.MetricsOp.stop 10]).getD 12)
      ((Metrics.lastStopTime
          [Metrics.MetricsOp.record 5 7 true, Metrics.MetricsOp.stop 10]).getD 12) = 1 / 5 ∧
    (1 / 10 : ℚ) ≠ 1 / 5 := by
  refine ⟨?_, ?_, by norm_num⟩
  · simp only [Metrics.Collector.runOps, Metrics.Collector.applyOp,
      Metrics.Collector.RecordRequest, Metrics.Collector.Stop, Metrics.NewCollector]
    simp [Metrics.Collector.GetStats]
  · simp only [Metrics.countRequests, Metrics.firstRecordTime, Metrics.lastStopTime]
    simp [Metrics.specFirstRecordThroughput]
    norm_num

namespace Metrics

theorem roundTiesEven_intCast (m : ℤ) : roundTiesEven (m : ℚ) = m := by
  simp only [roundTiesEven, Int.floor_intCast, sub_self]
  norm_num

theorem le_roundTiesEven (x : ℚ) : ⌊x⌋ ≤ roundTiesEven x := by
  unfold roundTiesEven
  split_ifs <;> omega

theorem roundTiesEven_le (x : ℚ) : roundTiesEven x ≤ ⌊x⌋ + 1 := by
  unfold roundTiesEven
  split_ifs <;> omega

theorem roundTiesEven_mono {x y : ℚ} (h : x ≤ y) : roundTiesEven x ≤ roundTiesEven y := by
  rcases lt_or_le ⌊x⌋ ⌊y⌋ with hf | hf
  · calc roundTiesEven x ≤ ⌊x⌋ + 1 := roundTiesEven_le x
      _ ≤ ⌊y⌋ := by omega
      _ ≤ roundTiesEven y := le_roundTiesEven y
  · have hfe : ⌊x⌋ = ⌊y⌋ := le_antisymm (Int.floor_le_floor h) hf
    have hsub : x - (⌊y⌋ : ℚ) ≤ y - (⌊y⌋ : ℚ) := sub_le_sub_right h _
    unfold roundTiesEven
    rw [hfe]
    split_ifs <;> first | omega | linarith

theorem roundTiesEven_eq_of_lt_half {x : ℚ} (m : ℤ) (h1 : (m : ℚ) ≤ x)
    (h2 : x < (m : ℚ) + 1/2) : roundTiesEven x = m := by
  have hf : ⌊x⌋ = m := Int.floor_eq_iff.mpr ⟨h1, by linarith⟩
  unfold roundTiesEven
  rw [hf, if_pos (by linarith)]

theorem fl_nonneg (q : ℚ) : 0 ≤ fl q := by
  unfold fl
  split_ifs with h
  · exact le_refl 0
  · push_neg at h
    have hs : (0 : ℚ) < q * 2 ^ ((52 : ℤ) - Int.log 2 q) :=
      mul_pos h (zpow_pos (by norm_num) _)
    have h1 : (0 : ℤ) ≤ roundTiesEven (q * 2 ^ ((52 : ℤ) - Int.log 2 q)) :=
      le_trans (Int.floor_nonneg.mpr hs.le) (le_roundTiesEven _)
    exact mul_nonneg (by exact_mod_cast h1) (zpow_pos (a := (2:ℚ)) (by norm_num) _).le

theorem int_log2_eq {r : ℚ} (e : ℤ) (h1 : (2 : ℚ) ^ e ≤ r) (h2 : r < (2 : ℚ) ^ (e + 1)) :
    Int.log 2 r = e := by
  have hr : 0 < r := lt_of_lt_of_le (zpow_pos (by norm_num) e) h1
  have ha : e ≤ Int.log 2 r := by
    refine (Int.zpow_le_iff_le_log (b := 2) (by norm_num) hr).mp ?_
    exact_mod_cast h1
  have hb : Int.log 2 r < e + 1 := by
    refine (Int.lt_zpow_iff_log_lt (b := 2) (by norm_num) hr).mp ?_
    exact_mod_cast h2
  omega

theorem fl_eq_of {q : ℚ} (e m : ℤ) (h1 : (2 : ℚ) ^ e ≤ q) (h2 : q < (2 : ℚ) ^ (e + 1))
    (hm : roundTiesEven (q * 2 ^ ((52 : ℤ) - e)) = m) :
    fl q = (m : ℚ) * 2 ^ (e - 52) := by
  have hr : 0 < q := lt_of_lt_of_le (zpow_pos (by norm_num) e) h1
  unfold fl
  rw [if_neg (not_le.mpr hr), int_log2_eq e h1 h2, hm]

theorem fl_natCast {k : ℕ} (hk : k < 2 ^ 53) : fl (k : ℚ) = k := by
  rcases Nat.eq_zero_or_pos k with rfl | hpos
  · simp [fl]
  · have hk0 : (0 : ℚ) < (k : ℚ) := by exact_mod_cast hpos
    have he0 : 0 ≤ Int.log 2 (k : ℚ) := by
      refine (Int.zpow_le_iff_le_log (b := 2) (by norm_num) hk0).mp ?_
      have h1 : (1 : ℚ) ≤ (k : ℚ) := by exact_mod_cast hpos
      simpa using h1
    have he52 : Int.log 2 (k : ℚ) < 53 := by
      refine (Int.lt_zpow_iff_log_lt (b := 2) (by norm_num) hk0).mp ?_
      have h2 : (k : ℚ) < ((2 ^ 53 : ℕ) : ℚ) := by exact_mod_cast hk
      have h3 : ((2 ^ 53 : ℕ) : ℚ) = ((2 : ℕ) : ℚ) ^ (53 : ℤ) := by
        push_cast
        norm_num
      rw [h3] at h2
      exact h2
    set e := Int.log 2 (k : ℚ) with he
    obtain ⟨d, hd⟩ : ∃ d : ℕ, (52 : ℤ) - e = d :=
      ⟨((52 : ℤ) - e).toNat, (Int.toNat_of_nonneg (by omega)).symm⟩
    have hscale : (k : ℚ) * 2 ^ ((52 : ℤ) - e) = (((k * 2 ^ d : ℕ) : ℤ) : ℚ) := by
      rw [hd]
      push_cast
      rw [zpow_natCast]
    have hrte : roundTiesEven ((k : ℚ) * 2 ^ ((52 : ℤ) - e)) = ((k * 2 ^ d : ℕ) : ℤ) := by
      rw [hscale, roundTiesEven_intCast]
    unfold fl
    rw [if_neg (not_le.mpr hk0), ← he, hrte]
    push_cast
    rw [mul_assoc, ← zpow_natCast (2 : ℚ) d, ← zpow_add₀ (by norm_num : (2:ℚ) ≠ 0) (d : ℤ) (e - 52)]
    rw [← hd]
    have hexp : ((52 : ℤ) - e) + (e - 52) = 0 := by ring
    rw [hexp, zpow_zero, mul_one]

theorem cast_two_pow_53 : (((2 : ℤ) ^ 53 : ℤ) : ℚ) = (2 : ℚ) ^ (53 : ℤ) := by
  push_cast
  norm_num

theorem cast_two_pow_52 : (((2 : ℤ) ^ 52 : ℤ) : ℚ) = (2 : ℚ) ^ (52 : ℤ) := by
  push_cast
  norm_num

theorem fl_le_zpow_succ_log {x : ℚ} (hx : 0 < x) :
    fl x ≤ (2 : ℚ) ^ (Int.log 2 x + 1) := by
  set e := Int.log 2 x with he
  have hxb : x < (2 : ℚ) ^ (e + 1) := by
    have h := Int.lt_zpow_succ_log_self (b := 2) (by norm_num) x
    rw [he]
    exact_mod_cast h
  have hs : x * 2 ^ ((52 : ℤ) - e) < (2 : ℚ) ^ (53 : ℤ) := by
    have hsc := mul_lt_mul_of_pos_right hxb (zpow_pos (a := (2:ℚ)) (by norm_num) ((52 : ℤ) - e))
    calc x * 2 ^ ((52 : ℤ) - e) < (2 : ℚ) ^ (e + 1) * 2 ^ ((52 : ℤ) - e) := hsc
      _ = (2 : ℚ) ^ (53 : ℤ) := by
          rw [← zpow_add₀ (by norm_num : (2:ℚ) ≠ 0)]
          congr 1
          ring
  have hfloor : ⌊x * 2 ^ ((52 : ℤ) - e)⌋ < (2 : ℤ) ^ 53 := by
    rw [Int.floor_lt, cast_two_pow_53]
    exact hs
  have hrte : roundTiesEven (x * 2 ^ ((52 : ℤ) - e)) ≤ (2 : ℤ) ^ 53 := by
    have := roundTiesEven_le (x * 2 ^ ((52 : ℤ) - e))
    omega
  unfold fl
  rw [if_neg (not_le.mpr hx), ← he]
  calc (roundTiesEven (x * 2 ^ ((52 : ℤ) - e)) : ℚ) * 2 ^ (e - 52)
      ≤ (((2 : ℤ) ^ 53 : ℤ) : ℚ) * 2 ^ (e - 52) := by
        apply mul_le_mul_of_nonneg_right _ (zpow_pos (a := (2:ℚ)) (by norm_num) _).le
        exact_mod_cast hrte
    _ = (2 : ℚ) ^ (e + 1) := by
        rw [cast_two_pow_53, ← zpow_add₀ (by norm_num : (2:ℚ) ≠ 0)]
        congr 1
        ring

theorem zpow_log_le_fl {y : ℚ} (hy : 0 < y) :
    (2 : ℚ) ^ Int.log 2 y ≤ fl y := by
  set e := Int.log 2 y with he
  have hyb : (2 : ℚ) ^ e ≤ y := by
    have h := Int.zpow_log_le_self (b := 2) (by norm_num) hy
    rw [he]
    exact_mod_cast h
  have ht : (2 : ℚ) ^ (52 : ℤ) ≤ y * 2 ^ ((52 : ℤ) - e) := by
    calc (2 : ℚ) ^ (52 : ℤ) = (2 : ℚ) ^ e * 2 ^ ((52 : ℤ) - e) := by
          rw [← zpow_add₀ (by norm_num : (2:ℚ) ≠ 0)]
          congr 1
          ring
      _ ≤ y * 2 ^ ((52 : ℤ) - e) :=
          mul_le_mul_of_nonneg_right hyb (zpow_pos (a := (2:ℚ)) (by norm_num) _).le
  have hfloor : (2 : ℤ) ^ 52 ≤ ⌊y * 2 ^ ((52 : ℤ) - e)⌋ := by
    rw [Int.le_floor, cast_two_pow_52]
    exact ht
  have hrte : (2 : ℤ) ^ 52 ≤ roundTiesEven (y * 2 ^ ((52 : ℤ) - e)) := by
    have := le_roundTiesEven (y * 2 ^ ((52 : ℤ) - e))
    omega
  unfold fl
  rw [if_neg (not_le.mpr hy), ← he]
  calc (2 : ℚ) ^ e = (((2 : ℤ) ^ 52 : ℤ) : ℚ) * 2 ^ (e - 52) := by
        rw [cast_two_pow_52, ← zpow_add₀ (by norm_num : (2:ℚ) ≠ 0)]
        congr 1
        ring
    _ ≤ (roundTiesEven (y * 2 ^ ((52 : ℤ) - e)) : ℚ) * 2 ^ (e - 52) := by
        apply mul_le_mul_of_nonneg_right _ (zpow_pos (a := (2:ℚ)) (by norm_num) _).le
        exact_mod_cast hrte

theorem fl_mono {x y : ℚ} (h : x ≤ y) : fl x ≤ fl y := by
  rcases le_or_lt x 0 with hx | hx
  · rw [fl, if_pos hx]
    exact fl_nonneg y
  · have hy : 0 < y := lt_of_lt_of_le hx h
    have hee : Int.log 2 x ≤ Int.log 2 y := Int.log_mono_right hx h
    rcases eq_or_lt_of_le hee with heq | hlt
    · rw [fl, if_neg (not_le.mpr hx), fl, if_neg (not_le.mpr hy), ← heq]
      have hr := roundTiesEven_mono
        (mul_le_mul_of_nonneg_right h
          (zpow_pos (a := (2:ℚ)) (by norm_num) ((52 : ℤ) - Int.log 2 x)).le)
      exact mul_le_mul_of_nonneg_right (by exact_mod_cast hr)
        (zpow_pos (a := (2:ℚ)) (by norm_num) _).le
    · calc fl x ≤ (2 : ℚ) ^ (Int.log 2 x + 1) := fl_le_zpow_succ_log hx
        _ ≤ (2 : ℚ) ^ Int.log 2 y :=
            zpow_le_zpow_right₀ (by norm_num) (by omega)
        _ ≤ fl y := zpow_log_le_fl hy

theorem goTrunc_of_nonneg {q : ℚ} (h : 0 ≤ q) : goTrunc q = ⌊q⌋ := by
  unfold goTrunc
  rw [if_neg (not_lt.mpr h)]

theorem goTrunc_mono_of_nonneg {x y : ℚ} (hx : 0 ≤ x) (hxy : x ≤ y) :
    goTrunc x ≤ goTrunc y := by
  rw [goTrunc_of_nonneg hx, goTrunc_of_nonneg (le_trans hx hxy)]
  exact Int.floor_le_floor hxy

theorem goRank_nonneg (p n : ℕ) : 0 ≤ goRank p n := by
  unfold goRank
  rw [goTrunc_of_nonneg (fl_nonneg _)]
  exact Int.floor_nonneg.mpr (fl_nonneg _)

theorem fl_zero : fl 0 = 0 := by
  simp [fl]

theorem goRank_zero (n : ℕ) : goRank 0 n = 0 := by
  unfold goRank
  rw [Nat.cast_zero, fl_zero, zero_div, fl_zero, zero_mul, fl_zero]
  simp [goTrunc]

theorem goRank_hundred {n : ℕ} (hn : n < 2 ^ 53) : goRank 100 n = n := by
  unfold goRank
  have h100 : fl ((100 : ℕ) : ℚ) = ((100 : ℕ) : ℚ) := fl_natCast (by norm_num)
  have h1 : fl (((100 : ℕ) : ℚ) / 100) = 1 := by
    have : ((100 : ℕ) : ℚ) / 100 = ((1 : ℕ) : ℚ) := by norm_num
    rw [this, fl_natCast (by norm_num), Nat.cast_one]
  rw [h100, h1, one_mul, fl_natCast hn, fl_natCast hn]
  rw [goTrunc_of_nonneg (by positivity)]
  exact Int.floor_natCast n

theorem goRank_mono {p q : ℕ} (n : ℕ) (h : p ≤ q) : goRank p n ≤ goRank q n := by
  unfold goRank
  have h1 : fl (p : ℚ) ≤ fl (q : ℚ) := fl_mono (by exact_mod_cast h)
  have h2 : fl (fl (p : ℚ) / 100) ≤ fl (fl (q : ℚ) / 100) := by
    apply fl_mono
    rw [div_eq_mul_inv, div_eq_mul_inv]
    exact mul_le_mul_of_nonneg_right h1 (by positivity)
  have h3 : fl (fl (p : ℚ) / 100) * fl (n : ℚ) ≤ fl (fl (q : ℚ) / 100) * fl (n : ℚ) :=
    mul_le_mul_of_nonneg_right h2 (fl_nonneg _)
  exact goTrunc_mono_of_nonneg (fl_nonneg _) (fl_mono h3)

theorem fl_29_div_100 :
    fl (((29 : ℕ) : ℚ) / 100) = (5224175567749775 : ℚ) * 2 ^ ((-2 : ℤ) - 52) := by
  apply fl_eq_of (-2) 5224175567749775
  · push_cast
    norm_num
  · push_cast
    norm_num
  · have harg : ((29 : ℕ) : ℚ) / 100 * 2 ^ ((52 : ℤ) - (-2)) = 130604389193744384 / 25 := by
      push_cast
      norm_num
    rw [harg]
    apply roundTiesEven_eq_of_lt_half
    · push_cast
      norm_num
    · push_cast
      norm_num

theorem fl_29_product :
    fl ((5224175567749775 : ℚ) * 2 ^ ((-2 : ℤ) - 52) * fl ((100 : ℕ) : ℚ)) =
      (8162774324609023 : ℚ) * 2 ^ ((4 : ℤ) - 52) := by
  rw [fl_natCast (k := 100) (by norm_num)]
  apply fl_eq_of 4 8162774324609023
  · push_cast
    norm_num
  · push_cast
    norm_num
  · have harg : (5224175567749775 : ℚ) * 2 ^ ((-2 : ℤ) - 52) * ((100 : ℕ) : ℚ) *
        2 ^ ((52 : ℤ) - 4) = 130604389193744375 / 16 := by
      push_cast
      norm_num
    rw [harg]
    apply roundTiesEven_eq_of_lt_half
    · push_cast
      norm_num
    · push_cast
      norm_num

theorem goRank_29_100 : goRank 29 100 = 28 := by
  unfold goRank
  rw [fl_natCast (k := 29) (by norm_num), fl_29_div_100, fl_29_product]
  rw [goTrunc_of_nonneg (by positivity)]
  rw [Int.floor_eq_iff]
  constructor
  · push_cast
    norm_num
  · push_cast
    norm_num

theorem sortedLatencies_sorted (l : List Nat) :
    List.Sorted (fun a b => a ≤ b) (sortedLatencies l) :=
  List.sorted_insertionSort _ l

theorem sortedLatencies_perm (l : List Nat) : (sortedLatencies l).Perm l :=
  List.perm_insertionSort _ l

theorem sorted_getD_zero_le {s : List Nat} (hs : List.Sorted (fun a b => a ≤ b) s)
    {x : Nat} (hx : x ∈ s) : s.getD 0 0 ≤ x := by
  cases s with
  | nil => cases hx
  | cons a t =>
    rcases List.mem_cons.mp hx with rfl | hx2
    · simp
    · simpa using (List.sorted_cons.mp hs).1 x hx2

theorem le_sorted_getD_last {s : List Nat} (hs : List.Sorted (fun a b => a ≤ b) s)
    {x : Nat} (hx : x ∈ s) : x ≤ s.getD (s.length - 1) 0 := by
  obtain ⟨i, rfl⟩ := List.mem_iff_get.mp hx
  have hlen : s.length - 1 < s.length := by
    have := i.isLt
    omega
  rw [List.getD_eq_get s 0 hlen]
  apply hs.rel_get_of_le
  have := i.isLt
  exact Fin.mk_le_mk.mpr (by omega)

theorem sorted_getD_mono {s : List Nat} (hs : List.Sorted (fun a b => a ≤ b) s)
    {i j : Nat} (hij : i ≤ j) (hj : j < s.length) : s.getD i 0 ≤ s.getD j 0 := by
  have hi : i < s.length := lt_of_le_of_lt hij hj
  rw [List.getD_eq_get s 0 hi, List.getD_eq_get s 0 hj]
  exact hs.rel_get_of_le (Fin.mk_le_mk.mpr hij)

theorem sorted_getD_mem {s : List Nat} {i : Nat} (hi : i < s.length) :
    s.getD i 0 ∈ s := by
  rw [List.getD_eq_get s 0 hi]
  exact List.get_mem s i hi

theorem percentile_100_eq_last {s : List Nat} (hne : s.length ≠ 0)
    (hlen : s.length < 2 ^ 53) : percentile s 100 = s.getD (s.length - 1) 0 := by
  unfold percentile
  rw [if_neg hne]
  have hrank : (goRank 100 s.length).toNat = s.length := by
    rw [goRank_hundred hlen]
    exact Int.toNat_natCast s.length
  simp only [hrank, le_refl, if_pos]

theorem percentile_0_eq_head {s : List Nat} (hne : s.length ≠ 0) :
    percentile s 0 = s.getD 0 0 := by
  unfold percentile
  rw [if_neg hne]
  have hrank : (goRank 0 s.length).toNat = 0 := by
    rw [goRank_zero]
    rfl
  simp only [hrank]
  rw [if_neg (by omega)]

theorem percentile_mono {s : List Nat} (hs : List.Sorted (fun a b => a ≤ b) s)
    (hne : s.length ≠ 0) {p q : Nat} (hpq : p ≤ q) :
    percentile s p ≤ percentile s q := by
  unfold percentile
  rw [if_neg hne, if_neg hne]
  have hr : (goRank p s.length).toNat ≤ (goRank q s.length).toNat :=
    Int.toNat_le_toNat (goRank_mono s.length hpq)
  apply sorted_getD_mono hs
  · by_cases h1 : s.length ≤ (goRank p s.length).toNat <;>
      by_cases h2 : s.length ≤ (goRank q s.length).toNat <;>
      simp only [if_pos, if_neg, h1, h2, if_true, if_false] <;> omega
  · by_cases h2 : s.length ≤ (goRank q s.length).toNat <;>
      simp only [if_pos, if_neg, h2, if_true, if_false] <;> omega

/-- C1 amended: the snapshot sorts a copy of the samples ascending and
returns the element at the rank obtained by truncating the float64
product (p/100)·n, clamped to n-1; because of float64 rounding that
rank can differ from the exact floor(p·n/100) (the counterexample
exhibits an input where it is one below), but the stated consequences
all hold: for every non-empty sample list whose length is in the
float64-exact range, percentile at 100 is the maximum sample,
percentile at 0 is the minimum sample, and the percentile value is
non-decreasing as p increases. -/
theorem percentile_endpoints_monotone (l : List Nat) (hne : l ≠ []) (hlen : l.length < 2 ^ 53)
    (p q : Nat) (hpq : p ≤ q) :
    (∀ x ∈ l, x ≤ percentile (sortedLatencies l) 100) ∧
    percentile (sortedLatencies l) 100 ∈ l ∧
    (∀ x ∈ l, percentile (sortedLatencies l) 0 ≤ x) ∧
    percentile (sortedLatencies l) 0 ∈ l ∧
    percentile (sortedLatencies l) p ≤ percentile (sortedLatencies l) q := by
  have hperm := sortedLatencies_perm l
  have hsorted := sortedLatencies_sorted l
  have hslen : (sortedLatencies l).length = l.length := hperm.length_eq
  have hsne : (sortedLatencies l).length ≠ 0 := by
    rw [hslen]
    simpa [List.length_eq_zero] using hne
  have hslt : (sortedLatencies l).length < 2 ^ 53 := by
    rw [hslen]
    exact hlen
  refine ⟨?_, ?_, ?_, ?_, ?_⟩
  · intro x hx
    rw [percentile_100_eq_last hsne hslt]
    exact le_sorted_getD_last hsorted (hperm.mem_iff.mpr hx)
  · rw [percentile_100_eq_last hsne hslt]
    exact hperm.subset (sorted_getD_mem (by omega))
  · intro x hx
    rw [percentile_0_eq_head hsne]
    exact sorted_getD_zero_le hsorted (hperm.mem_iff.mpr hx)
  · rw [percentile_0_eq_head hsne]
    exact hperm.subset (sorted_getD_mem (by omega))
  · exact percentile_mono hsorted hsne hpq

/-- Witness for C1 on the sample list [3, 1, 2] with p = 50, q = 95. -/
theorem percentile_endpoints_monotone_witness :
    (([3, 1, 2] : List Nat) ≠ [] ∧ ([3, 1, 2] : List Nat).length < 2 ^ 53 ∧ (50 : Nat) ≤ 95) ∧
    ((∀ x ∈ ([3, 1, 2] : List Nat), x ≤ percentile (sortedLatencies [3, 1, 2]) 100) ∧
      percentile (sortedLatencies [3, 1, 2]) 100 ∈ ([3, 1, 2] : List Nat) ∧
      (∀ x ∈ ([3, 1, 2] : List Nat), percentile (sortedLatencies [3, 1, 2]) 0 ≤ x) ∧
      percentile (sortedLatencies [3, 1, 2]) 0 ∈ ([3, 1, 2] : List Nat) ∧
      percentile (sortedLatencies [3, 1, 2]) 50 ≤ percentile (sortedLatencies [3, 1, 2]) 95) :=
  ⟨⟨by decide, by norm_num, by decide⟩,
   percentile_endpoints_monotone [3, 1, 2] (by decide) (by norm_num) 50 95 (by decide)⟩

/-- C1 counterexample: on 100 sorted samples 0..99 at p = 29, the code
(float64 arithmetic, as `goRank`) indexes rank 28 and returns 28, while
the claimed exact rank floor(29/100 · 100) is 29 with element 29 — so
the percentile is not always the element at index floor(p/100 · n). -/
theorem percentile_float_rank_counterexample :
    percentile (sortedLatencies (List.range 100)) 29 = 28 ∧
    29 * (List.range 100).length / 100 = 29 ∧
    (sortedLatencies (List.range 100)).getD (29 * (List.range 100).length / 100) 0 = 29 ∧
    (28 : Nat) ≠ 29 := by
  have hsl : sortedLatencies (List.range 100) = List.range 100 :=
    List.Sorted.insertionSort_eq
      (List.Pairwise.imp (fun h => le_of_lt h) (List.pairwise_lt_range 100))
  refine ⟨?_, ?_, ?_, by decide⟩
  · rw [hsl]
    unfold percentile
    rw [if_neg (by simp)]
    simp only [List.length_range]
    rw [goRank_29_100]
    norm_num
    decide
  · simp [List.length_range]
  · rw [hsl]
    simp [List.length_range]

end Metrics
